import Mathlib

/-!
Shallow embedding of the jdwp.ts JDWP client (src/client.ts, src/adb-transport.ts,
the Node TCP transport) and proofs about its packet framing, dispatch, event
decoding and 64-bit id handling.

Byte buffers are lists of naturals (each entry a byte value 0..255).
JavaScript numeric semantics are made explicit:
  * `readUint32` uses `<<`/`|`, which operate on 32-bit two's complement
    integers, so the embedded read returns an `Int` (negative for a high top
    bit), via `toInt32`.
  * `readUint64` builds `high * 2^32 + low` as an IEEE-754 double, so the
    embedded read rounds the exact integer to 53 significant bits
    (round-to-nearest, ties-to-even), via `fl64`.
  * Out-of-bounds stores into a `Uint8Array` are dropped, which `List.set`
    models exactly; `slice` clamps, which `take`/`drop` model exactly.
-/

/-- Byte lookup at a `Nat` offset; in-bounds at every use the claims touch. -/
def byteAt (data : List Nat) (i : Nat) : Nat := data.getD i 0

/-- Byte lookup at an `Int` offset (event-decoder offsets are JS numbers). -/
def byteI (data : List Nat) (i : Int) : Nat :=
  if i < 0 then 0 else data.getD i.toNat 0

/-- Two's-complement reinterpretation of a 32-bit pattern, as produced by
JavaScript bitwise operators. -/
def toInt32 (n : Nat) : Int :=
  if n % 2 ^ 32 < 2 ^ 31 then ((n % 2 ^ 32 : Nat) : Int)
  else ((n % 2 ^ 32 : Nat) : Int) - 2 ^ 32

/-- `readUint16` of src/client.ts: `(data[o] << 8) | data[o+1]` (always fits
in 16 bits, hence nonnegative). -/
def readUint16 (data : List Nat) (o : Int) : Nat :=
  byteI data o * 2 ^ 8 + byteI data (o + 1)

/-- `readUint32` of src/client.ts and `readUint32BE` of the transports:
`(d[o] << 24) | (d[o+1] << 16) | (d[o+2] << 8) | d[o+3]`, a signed 32-bit
result in JavaScript. -/
def readUint32 (data : List Nat) (o : Int) : Int :=
  toInt32 (byteI data o * 2 ^ 24 + byteI data (o + 1) * 2 ^ 16 +
    byteI data (o + 2) * 2 ^ 8 + byteI data (o + 3))

/-- Unsigned big-endian u32 at a `Nat` offset (the wire-level value, used to
state specification-side properties such as a packet's declared length). -/
def beU32 (data : List Nat) (o : Nat) : Nat :=
  byteAt data o * 2 ^ 24 + byteAt data (o + 1) * 2 ^ 16 +
    byteAt data (o + 2) * 2 ^ 8 + byteAt data (o + 3)

/-- Fueled binary length (enough fuel for all 64-bit quantities in scope);
structural recursion keeps it kernel-computable. -/
def bitLenAux : Nat → Nat → Nat
  | 0, _ => 0
  | fuel + 1, n => if n = 0 then 0 else bitLenAux fuel (n / 2) + 1

/-- Number of binary digits of `n` (0 for 0). -/
def bitLen (n : Nat) : Nat := bitLenAux 128 n

/-- Round a natural number to the nearest IEEE-754 double (53-bit significand,
round-to-nearest, ties-to-even); exact below `2^53`. -/
def fl64 (n : Nat) : Nat :=
  if n < 2 ^ 53 then n
  else
    let k := bitLen n - 53
    let q := n / 2 ^ k
    let r := n % 2 ^ k
    let half := 2 ^ (k - 1)
    if half < r ∨ (r = half ∧ q % 2 = 1) then (q + 1) * 2 ^ k else q * 2 ^ k

/-- `fl64` extended to integers (doubles are sign-symmetric). -/
def flInt (v : Int) : Int :=
  if v < 0 then -(fl64 (-v).toNat : Int) else (fl64 v.toNat : Int)

/-- `readUint64` of src/client.ts: `high * 0x100000000 + low` where `high` and
`low` come from the signed `readUint32` and the arithmetic is IEEE-754 double
arithmetic (the product is exact, the sum is rounded once). -/
def readUint64 (data : List Nat) (o : Int) : Int :=
  flInt (readUint32 data o * 2 ^ 32 + readUint32 data (o + 4))

/-- The unsigned 64-bit big-endian value actually on the wire (the
specification-side reading of an 8-byte id). -/
def beU64 (data : List Nat) (o : Nat) : Nat :=
  beU32 data o * 2 ^ 32 + beU32 data (o + 4)

/-- `writeUint32` of src/client.ts on a nonnegative value `< 2^32`: stores the
four big-endian base-256 digits.  Out-of-range stores are dropped, exactly as a
`Uint8Array` drops them (`List.set` is the identity out of bounds). -/
def writeUint32 (buf : List Nat) (o : Nat) (v : Nat) : List Nat :=
  ((((buf.set o (v / 2 ^ 24 % 256)).set (o + 1) (v / 2 ^ 16 % 256)).set
    (o + 2) (v / 2 ^ 8 % 256)).set (o + 3) (v % 256))

/-- `writeUint32` on a possibly negative JavaScript number: the bitwise
operators reduce it modulo `2^32` first. -/
def writeUint32I (buf : List Nat) (o : Nat) (v : Int) : List Nat :=
  writeUint32 buf o (v.emod (2 ^ 32)).toNat

/-- `writeUint64` of src/client.ts: `high = Math.floor(v / 2^32)` (floor
division) and `low = v % 2^32` (JavaScript `%`, truncated remainder), each
written with `writeUint32`. -/
def writeUint64 (buf : List Nat) (o : Nat) (v : Int) : List Nat :=
  writeUint32I (writeUint32I buf o (Int.fdiv v (2 ^ 32))) (o + 4)
    (Int.tmod v (2 ^ 32))

/-- `writeUint8`: a single (in-range) byte store. -/
def writeUint8 (buf : List Nat) (o : Nat) (v : Nat) : List Nat := buf.set o v

/-- `data.set(src, o)` on a `Uint8Array`: store `src` byte by byte from
offset `o` (all uses in scope fit inside the target). -/
def setBytes (buf : List Nat) (o : Nat) (src : List Nat) : List Nat :=
  match src with
  | [] => buf
  | b :: rest => setBytes (buf.set o b) (o + 1) rest

/-- A fresh zero-filled `Uint8Array` of the given size. -/
def zeros (n : Nat) : List Nat := List.replicate n 0

/-- `TextEncoder().encode` restricted to ASCII strings (all signatures and
method names in scope are ASCII, where UTF-8 is the identity on code points). -/
def ascii (s : String) : List Nat := s.data.map Char.toNat

/-- The parsed JDWP packet record of src/client.ts `parsePacket`. -/
structure JPacket where
  length : Int
  id : Int
  flags : Nat
  commandSet : Nat
  command : Nat
  data : List Nat
deriving DecidableEq, Repr

/-- `parsePacket` of src/client.ts: fail below 11 bytes, otherwise read the
five header fields and keep `data.slice(11)` as the payload. -/
def parsePacket (data : List Nat) : Except String JPacket :=
  if data.length < 11 then .error "Invalid JDWP packet: too short"
  else .ok
    { length := readUint32 data 0
      id := readUint32 data 4
      flags := byteAt data 8
      commandSet := byteAt data 9
      command := byteAt data 10
      data := data.drop 11 }

/-- What `handlePacket` of src/client.ts does with one inbound buffer, as seen
by the pending-request table and the caller's promise. -/
inductive ReplyOutcome where
  | resolved (p : JPacket)
  | rejectedProtocol (code : Nat) (id : Int)
  | dropped
  | event (p : JPacket)
  | parseError
deriving DecidableEq, Repr

/-- `handlePacket` of src/client.ts, lines 60-92.  The pending table is
abstracted to its key set (a list of packet ids); the outcome records which of
resolve / reject / drop / event-dispatch happened. -/
def handlePacket (pending : List Int) (data : List Nat) :
    ReplyOutcome × List Int :=
  match parsePacket data with
  | .error _ => (.parseError, pending)
  | .ok packet =>
    if packet.flags = 0x80 then
      if packet.id ∈ pending then
        let pending1 := pending.erase packet.id
        if 2 ≤ packet.data.length then
          let errorCode := readUint16 packet.data 0
          if errorCode ≠ 0 then (.rejectedProtocol errorCode packet.id, pending1)
          else (.resolved packet, pending1)
        else (.resolved packet, pending1)
      else (.dropped, pending)
    else (.event packet, pending)

/-- C10: for every buffer of at least 11 bytes, `parsePacket` succeeds and its
`data` field is exactly the bytes after index 11 — the declared length field is
never validated against the bytes present — and every shorter buffer is
rejected with an error instead of a packet. -/
theorem parsePacket_spec (data : List Nat) :
    (11 ≤ data.length →
      ∃ p, parsePacket data = Except.ok p ∧ p.data = data.drop 11) ∧
    (data.length < 11 →
      parsePacket data = Except.error "Invalid JDWP packet: too short") := by
  constructor
  · intro h
    have hnot : ¬ data.length < 11 := by omega
    exact ⟨⟨readUint32 data 0, readUint32 data 4, byteAt data 8, byteAt data 9,
      byteAt data 10, data.drop 11⟩, by simp [parsePacket, hnot], rfl⟩
  · intro h
    simp [parsePacket, h]

/-- Witness for C10: a 12-byte buffer whose declared length field is 999 still
parses, with payload the single byte after the header; a 10-byte buffer is
rejected. -/
theorem parsePacket_spec_witness :
    (∃ p, parsePacket [0, 0, 3, 231, 0, 0, 0, 1, 128, 15, 1, 42] =
        Except.ok p ∧
        p.data = List.drop 11 [0, 0, 3, 231, 0, 0, 0, 1, 128, 15, 1, 42]) ∧
    parsePacket [0, 0, 0, 11, 0, 0, 0, 1, 128, 15] =
      Except.error "Invalid JDWP packet: too short" :=
  ⟨(parsePacket_spec [0, 0, 3, 231, 0, 0, 0, 1, 128, 15, 1, 42]).1 (by decide),
   (parsePacket_spec [0, 0, 0, 11, 0, 0, 0, 1, 128, 15]).2 (by decide)⟩

/-- C1: for an inbound reply buffer (flags `0x80`) whose id is pending, the
request's entry is removed from the pending table on either outcome, and the
caller is rejected with a protocol error carrying the reply's 16-bit
big-endian error code and packet id exactly when that code is nonzero;
otherwise the caller is resolved with the packet whose payload is the raw
bytes starting at the error-code field.  A total length of 11 (empty payload)
reads as error code 0 and resolves. -/
theorem handlePacket_reply (pending : List Int) (data : List Nat)
    (hlen : 11 ≤ data.length) (hflags : byteAt data 8 = 0x80)
    (hid : readUint32 data 4 ∈ pending)
    (hpay : data.length = 11 ∨ 13 ≤ data.length) :
    (handlePacket pending data).2 = pending.erase (readUint32 data 4) ∧
    (handlePacket pending data).1 =
      (if readUint16 (data.drop 11) 0 ≠ 0 then
        ReplyOutcome.rejectedProtocol (readUint16 (data.drop 11) 0)
          (readUint32 data 4)
      else
        ReplyOutcome.resolved
          ⟨readUint32 data 0, readUint32 data 4, 0x80, byteAt data 9,
            byteAt data 10, data.drop 11⟩) := by
  have hnot : ¬ data.length < 11 := by omega
  have hparse : parsePacket data = Except.ok
      ⟨readUint32 data 0, readUint32 data 4, byteAt data 8, byteAt data 9,
        byteAt data 10, data.drop 11⟩ := by
    simp [parsePacket, hnot]
  unfold handlePacket
  rw [hparse]
  simp only [hflags, if_pos rfl, hid, if_pos hid]
  rcases hpay with h11 | h13
  · have hdrop : data.drop 11 = [] := by
      have : data.length ≤ 11 := by omega
      exact List.drop_eq_nil_of_le this
    rw [hdrop]
    have he : readUint16 ([] : List Nat) 0 = 0 := by decide
    simp [he]
  · have hlen2 : 2 ≤ (data.drop 11).length := by
      rw [List.length_drop]; omega
    rw [if_pos hlen2]
    by_cases he : readUint16 (data.drop 11) 0 ≠ 0 <;> simp [he]

/-- Witness for C1: an 11-byte reply (empty payload) for pending id 1 resolves
with empty payload and removes the entry. -/
theorem handlePacket_reply_witness :
    (handlePacket [(1 : Int)] [0, 0, 0, 11, 0, 0, 0, 1, 128, 0, 0]).2 = [] ∧
    (handlePacket [(1 : Int)] [0, 0, 0, 11, 0, 0, 0, 1, 128, 0, 0]).1 =
      ReplyOutcome.resolved ⟨11, 1, 128, 0, 0, []⟩ := by
  have h := handlePacket_reply [(1 : Int)] [0, 0, 0, 11, 0, 0, 0, 1, 128, 0, 0]
    (by decide) (by decide) (by decide) (Or.inl (by decide))
  exact ⟨by rw [h.1]; decide, by rw [h.2]; decide⟩

/-- `processJdwpPackets` of src/adb-transport.ts (lines 148-180) and of the
Node TCP transport in the CLI (identical code): the reassembly loop over the
`pendingData` buffer.  Arguments are the transport's `pendingData` and
`connected` fields; the result is the list of buffers handed to the packet
callback, then the new `pendingData` and `connected`.  The corrupt-length
branch empties the buffer and leaves the loop; no branch touches `connected`
or closes the socket. -/
def processJdwpPackets (pending : List Nat) (connected : Bool) :
    List (List Nat) × List Nat × Bool :=
  if 11 ≤ pending.length then
    if readUint32 pending 0 < 11 then
      ([], [], connected)
    else if (pending.length : Int) < readUint32 pending 0 then
      ([], pending, connected)
    else
      let rest := processJdwpPackets (pending.drop (readUint32 pending 0).toNat)
        connected
      (pending.take (readUint32 pending 0).toNat :: rest.1, rest.2)
  else ([], pending, connected)
termination_by pending.length
decreasing_by
  simp only [List.length_drop]
  omega

/-- `readLoop` of the transports, restricted to its buffer management: each
received chunk is appended to `pendingData`, then `processJdwpPackets` runs;
delivered packets accumulate in arrival order. -/
def readLoopFeed (pending : List Nat) (connected : Bool) :
    List (List Nat) → List (List Nat) × List Nat × Bool
  | [] => ([], pending, connected)
  | chunk :: rest =>
    let step := processJdwpPackets (pending ++ chunk) connected
    let next := readLoopFeed step.2.1 step.2.2 rest
    (step.1 ++ next.1, next.2)

/-- Counterexample for C7: an 11-byte buffer whose declared length is 5 (< 11)
makes the adapter discard the buffer, but the connection is left open
(`connected` stays `true`); nothing closes the socket or fails the session. -/
theorem processJdwpPackets_corrupt_counterexample :
    processJdwpPackets [0, 0, 0, 5, 0, 0, 0, 0, 0, 0, 0] true =
      ([], [], true) ∧
    (processJdwpPackets [0, 0, 0, 5, 0, 0, 0, 0, 0, 0, 0] true).2.2 = true := by
  have h : processJdwpPackets [0, 0, 0, 5, 0, 0, 0, 0, 0, 0, 0] true =
      ([], [], true) := by
    unfold processJdwpPackets
    rw [if_pos (by decide), if_pos (by decide)]
  exact ⟨h, by rw [h]⟩

/-- C7 (amended): whenever the reassembly buffer holds at least 11 bytes and
its first 4 bytes decode (as a signed 32-bit read) to a declared length below
11, the adapter discards the whole buffer and stops processing that read,
delivering nothing; the connection state is left unchanged — the session is
not failed or closed. -/
theorem processJdwpPackets_corrupt (pending : List Nat) (connected : Bool)
    (h11 : 11 ≤ pending.length) (hbad : readUint32 pending 0 < 11) :
    processJdwpPackets pending connected = ([], [], connected) := by
  unfold processJdwpPackets
  rw [if_pos h11, if_pos hbad]

/-- Witness for C7 (amended): the declared-length-5 buffer with a live
connection. -/
theorem processJdwpPackets_corrupt_witness :
    processJdwpPackets [0, 0, 0, 5, 255, 255, 255, 255, 255, 255, 255] true =
      ([], [], true) :=
  processJdwpPackets_corrupt [0, 0, 0, 5, 255, 255, 255, 255, 255, 255, 255]
    true (by decide) (by decide)

/-- The declared length of a packet: unsigned big-endian u32 at offset 0. -/
def jlen (p : List Nat) : Nat := beU32 p 0

/-- A well-formed wire packet in the corrected framing claim: its byte count
equals its declared length, which is at least 11 and (the correction the
signed 32-bit length read forces) below `2^31`. -/
def wfPacket (p : List Nat) : Prop :=
  p.length = jlen p ∧ 11 ≤ jlen p ∧ jlen p < 2 ^ 31

instance (p : List Nat) : Decidable (wfPacket p) := by
  unfold wfPacket; infer_instance

/-- A buffer that is a strict proper front part of some well-formed packet
(fewer bytes than the packet's declared length). -/
def strictFragment (r : List Nat) : Prop :=
  ∃ p, wfPacket p ∧ r.length < p.length ∧ r = p.take r.length

/-- A byte stream that decomposes into whole well-formed packets followed by a
strict front part of a next packet. -/
def wfStream (s : List Nat) : Prop :=
  ∃ (pkts : List (List Nat)) (r : List Nat),
    s = pkts.flatten ++ r ∧ (∀ p ∈ pkts, wfPacket p) ∧ strictFragment r

theorem toInt32_of_lt (n : Nat) (h : n < 2 ^ 31) : toInt32 n = (n : Int) := by
  unfold toInt32
  have h32 : n % 2 ^ 32 = n := Nat.mod_eq_of_lt (by omega)
  rw [h32, if_pos h]

theorem byteI_ofNat (p : List Nat) (k : Nat) : byteI p (k : Int) = byteAt p k := by
  unfold byteI byteAt
  rw [if_neg (by omega)]
  simp

theorem readUint32_zero (p : List Nat) : readUint32 p 0 = toInt32 (jlen p) := by
  unfold readUint32 jlen beU32
  have h0 : byteI p 0 = byteAt p 0 := byteI_ofNat p 0
  have h1 : byteI p (0 + 1) = byteAt p 1 := by
    rw [show ((0 : Int) + 1) = ((1 : Nat) : Int) by norm_num, byteI_ofNat]
  have h2 : byteI p (0 + 2) = byteAt p 2 := by
    rw [show ((0 : Int) + 2) = ((2 : Nat) : Int) by norm_num, byteI_ofNat]
  have h3 : byteI p (0 + 3) = byteAt p 3 := by
    rw [show ((0 : Int) + 3) = ((3 : Nat) : Int) by norm_num, byteI_ofNat]
  rw [h0, h1, h2, h3]

theorem readUint32_zero_of_wf (p : List Nat) (h : jlen p < 2 ^ 31) :
    readUint32 p 0 = (jlen p : Int) := by
  rw [readUint32_zero, toInt32_of_lt _ h]

theorem byteAt_append_left (p r : List Nat) (i : Nat) (h : i < p.length) :
    byteAt (p ++ r) i = byteAt p i := by
  unfold byteAt
  exact List.getD_append p r 0 i h

theorem jlen_append (p r : List Nat) (h : 4 ≤ p.length) :
    jlen (p ++ r) = jlen p := by
  unfold jlen beU32
  rw [byteAt_append_left p r 0 (by omega), byteAt_append_left p r 1 (by omega),
    byteAt_append_left p r 2 (by omega), byteAt_append_left p r 3 (by omega)]

theorem byteAt_take (p : List Nat) (k i : Nat) (h : i < k) :
    byteAt (p.take k) i = byteAt p i := by
  unfold byteAt
  rcases Nat.lt_or_ge i p.length with hi | hi
  · rw [List.getD_eq_getElem _ _ (by simp; omega), List.getD_eq_getElem _ _ hi]
    simp [List.getElem_take]
  · rw [List.getD_eq_default _ _ (by simp; omega), List.getD_eq_default _ _ hi]

theorem jlen_take (p : List Nat) (k : Nat) (h : 4 ≤ k) :
    jlen (p.take k) = jlen p := by
  unfold jlen beU32
  rw [byteAt_take p k 0 (by omega), byteAt_take p k 1 (by omega),
    byteAt_take p k 2 (by omega), byteAt_take p k 3 (by omega)]

theorem process_cons_packet (p rest : List Nat) (c : Bool) (hp : wfPacket p) :
    processJdwpPackets (p ++ rest) c =
      (p :: (processJdwpPackets rest c).1, (processJdwpPackets rest c).2) := by
  obtain ⟨hlen, h11, h31⟩ := hp
  have h4 : 4 ≤ p.length := by omega
  have hread : readUint32 (p ++ rest) 0 = (jlen p : Int) := by
    rw [readUint32_zero, jlen_append p rest h4, toInt32_of_lt _ h31]
  have hlen_app : (p ++ rest).length = p.length + rest.length :=
    List.length_append p rest
  have hc1 : 11 ≤ (p ++ rest).length := by omega
  have hc2 : ¬ readUint32 (p ++ rest) 0 < 11 := by rw [hread]; omega
  have hc3 : ¬ ((p ++ rest).length : Int) < readUint32 (p ++ rest) 0 := by
    rw [hread]; omega
  have htoNat : (readUint32 (p ++ rest) 0).toNat = p.length := by
    rw [hread]; simpa using hlen.symm
  rw [processJdwpPackets.eq_def]
  rw [if_pos hc1, if_neg hc2, if_neg hc3, htoNat]
  simp only [List.take_left, List.drop_left]

theorem process_fragment (r : List Nat) (c : Bool) (hr : strictFragment r) :
    processJdwpPackets r c = ([], r, c) := by
  obtain ⟨p, ⟨hplen, h11, h31⟩, hrlen, hrtake⟩ := hr
  by_cases hc : 11 ≤ r.length
  · have h4 : 4 ≤ r.length := by omega
    have hjlen : jlen r = jlen p := by
      conv_lhs => rw [hrtake]
      exact jlen_take p r.length h4
    have hread : readUint32 r 0 = (jlen p : Int) := by
      rw [readUint32_zero, hjlen, toInt32_of_lt _ h31]
    have hc2 : ¬ readUint32 r 0 < 11 := by rw [hread]; omega
    have hc3 : (r.length : Int) < readUint32 r 0 := by
      rw [hread]
      have : r.length < jlen p := by omega
      exact_mod_cast this
    unfold processJdwpPackets
    rw [if_pos hc, if_neg hc2, if_pos hc3]
  · unfold processJdwpPackets
    rw [if_neg hc]

theorem process_flatten_append (pkts : List (List Nat)) (X : List Nat)
    (c : Bool) (hw : ∀ p ∈ pkts, wfPacket p) :
    processJdwpPackets (pkts.flatten ++ X) c =
      (pkts ++ (processJdwpPackets X c).1, (processJdwpPackets X c).2) := by
  induction pkts with
  | nil => simp
  | cons p rest ih =>
    have hp := hw p (List.mem_cons_self p rest)
    have hrest : ∀ q ∈ rest, wfPacket q := fun q hq =>
      hw q (List.mem_cons_of_mem p hq)
    rw [List.flatten_cons, List.append_assoc, process_cons_packet p _ c hp,
      ih hrest]
    simp

theorem process_stream (pkts : List (List Nat)) (r : List Nat) (c : Bool)
    (hw : ∀ p ∈ pkts, wfPacket p) (hr : strictFragment r) :
    processJdwpPackets (pkts.flatten ++ r) c = (pkts, r, c) := by
  rw [process_flatten_append pkts r c hw, process_fragment r c hr]
  simp

theorem wfStream_cancel (p Y : List Nat) (hp : wfPacket p)
    (h : wfStream (p ++ Y)) : wfStream Y := by
  obtain ⟨pkts, r, heq, hw, hr⟩ := h
  obtain ⟨hplen, h11, h31⟩ := hp
  cases pkts with
  | nil =>
    exfalso
    simp only [List.flatten_nil, List.nil_append] at heq
    obtain ⟨q, ⟨hqlen, hq11, hq31⟩, hrlen, hrtake⟩ := hr
    have hrlen2 : p.length ≤ r.length := by
      rw [← heq, List.length_append]; omega
    have hjq : jlen r = jlen q := by
      conv_lhs => rw [hrtake]
      exact jlen_take q r.length (by omega)
    have hjp : jlen r = jlen p := by
      rw [← heq]
      exact jlen_append p Y (by omega)
    omega
  | cons q rest =>
    have hq := hw q (List.mem_cons_self q rest)
    obtain ⟨hqlen, hq11, hq31⟩ := hq
    have heq2 : p ++ Y = q ++ (rest.flatten ++ r) := by
      simpa [List.append_assoc] using heq
    have hbytes : ∀ i, i < 4 → byteAt p i = byteAt q i := by
      intro i hi
      have h1 : byteAt (p ++ Y) i = byteAt p i :=
        byteAt_append_left _ _ _ (by omega)
      have h2 : byteAt (q ++ (rest.flatten ++ r)) i = byteAt q i :=
        byteAt_append_left _ _ _ (by omega)
      rw [← h1, heq2, h2]
    have hjq : jlen p = jlen q := by
      unfold jlen beU32
      rw [hbytes 0 (by omega), hbytes 1 (by omega), hbytes 2 (by omega),
        hbytes 3 (by omega)]
    have hlen_eq : p.length = q.length := by omega
    have hpq : p = q := by
      have h1 : (p ++ Y).take p.length = p := List.take_left p Y
      have h2 : (q ++ (rest.flatten ++ r)).take q.length = q :=
        List.take_left q (rest.flatten ++ r)
      rw [← h1, heq2, hlen_eq, h2]
    have hY : Y = rest.flatten ++ r := by
      have h3 := congrArg (List.drop p.length) heq2
      rw [List.drop_left] at h3
      rw [h3, hpq, List.drop_left]
    exact ⟨rest, r, hY, fun x hx => hw x (List.mem_cons_of_mem q hx), hr⟩

theorem wfStream_cancel_flatten (pkts : List (List Nat)) (Y : List Nat)
    (hw : ∀ p ∈ pkts, wfPacket p) (h : wfStream (pkts.flatten ++ Y)) :
    wfStream Y := by
  induction pkts with
  | nil => simpa using h
  | cons p rest ih =>
    apply ih (fun q hq => hw q (List.mem_cons_of_mem p hq))
    apply wfStream_cancel p _ (hw p (List.mem_cons_self p rest))
    simpa [List.append_assoc] using h

theorem wfStream_take_aux (pkts : List (List Nat)) :
    ∀ (r s t : List Nat), s ++ t = pkts.flatten ++ r →
      (∀ p ∈ pkts, wfPacket p) → strictFragment r → wfStream s := by
  induction pkts with
  | nil =>
    intro r s t heq hw hr
    simp only [List.flatten_nil, List.nil_append] at heq
    obtain ⟨q, hq, hrlen, hrtake⟩ := hr
    have hslen : s.length ≤ r.length := by
      rw [← heq, List.length_append]; omega
    refine ⟨[], s, by simp, by simp, q, hq, by omega, ?_⟩
    calc s = (s ++ t).take s.length := (List.take_left s t).symm
    _ = r.take s.length := by rw [heq]
    _ = (q.take r.length).take s.length := by rw [← hrtake]
    _ = q.take s.length := by rw [List.take_take, min_eq_left hslen]
  | cons q rest ih =>
    intro r s t heq hw hr
    have hq := hw q (List.mem_cons_self q rest)
    have heq2 : s ++ t = q ++ (rest.flatten ++ r) := by
      simpa [List.append_assoc] using heq
    rcases Nat.lt_or_ge s.length q.length with hlt | hge
    · refine ⟨[], s, by simp, by simp, q, hq, hlt, ?_⟩
      calc s = (s ++ t).take s.length := (List.take_left s t).symm
      _ = (q ++ (rest.flatten ++ r)).take s.length := by rw [heq2]
      _ = q.take s.length := List.take_append_of_le_length (le_of_lt hlt)
    · rcases Nat.lt_or_ge q.length s.length with hgt | hle
      · have hstake : s.take q.length = q := by
          have h3 := congrArg (List.take q.length) heq2
          rw [List.take_append_of_le_length (le_of_lt hgt), List.take_left]
            at h3
          exact h3
        have hsplit : s = q ++ s.drop q.length := by
          conv_lhs => rw [← List.take_append_drop q.length s]
          rw [hstake]
        have hdrop : s.drop q.length ++ t = rest.flatten ++ r := by
          have h3 := congrArg (List.drop q.length) heq2
          rw [List.drop_append_of_le_length (le_of_lt hgt), List.drop_left]
            at h3
          exact h3
        obtain ⟨pkts1, r1, h1, h2, h3⟩ := ih r (s.drop q.length) t hdrop
          (fun x hx => hw x (List.mem_cons_of_mem q hx)) hr
        refine ⟨q :: pkts1, r1, ?_, ?_, h3⟩
        · rw [hsplit, h1, List.flatten_cons, List.append_assoc]
        · intro x hx
          rcases List.mem_cons.mp hx with hx | hx
          · rw [hx]; exact hq
          · exact h2 x hx
      · have hEq : s.length = q.length := by omega
        have hs : s = q := by
          calc s = (s ++ t).take s.length := (List.take_left s t).symm
          _ = (q ++ (rest.flatten ++ r)).take s.length := by rw [heq2]
          _ = (q ++ (rest.flatten ++ r)).take q.length := by rw [hEq]
          _ = q := List.take_left q (rest.flatten ++ r)
        refine ⟨[q], [], by simp [hs], by simpa using hq, q, hq, ?_, by simp⟩
        have := hq.1
        have := hq.2.1
        simp; omega

theorem wfStream_of_append (s t : List Nat) (h : wfStream (s ++ t)) :
    wfStream s := by
  obtain ⟨pkts, r, heq, hw, hr⟩ := h
  exact wfStream_take_aux pkts r s t heq hw hr

theorem readLoopFeed_eq (chunks : List (List Nat)) :
    ∀ (r0 : List Nat) (c : Bool), strictFragment r0 →
      wfStream (r0 ++ chunks.flatten) →
      readLoopFeed r0 c chunks = processJdwpPackets (r0 ++ chunks.flatten) c := by
  induction chunks with
  | nil =>
    intro r0 c hr0 _
    rw [show readLoopFeed r0 c [] = ([], r0, c) from rfl]
    simp only [List.flatten_nil, List.append_nil]
    rw [process_fragment r0 c hr0]
  | cons chunk rest ih =>
    intro r0 c hr0 hwf
    have hassoc : r0 ++ (chunk :: rest).flatten = (r0 ++ chunk) ++ rest.flatten := by
      simp [List.flatten_cons, List.append_assoc]
    have hwf1 : wfStream (r0 ++ chunk) :=
      wfStream_of_append (r0 ++ chunk) rest.flatten (by rw [← hassoc]; exact hwf)
    obtain ⟨pkts1, r1, hsplit, hw1, hr1⟩ := hwf1
    have hstep : processJdwpPackets (r0 ++ chunk) c = (pkts1, r1, c) := by
      rw [hsplit]; exact process_stream pkts1 r1 c hw1 hr1
    have hwf2 : wfStream (r1 ++ rest.flatten) := by
      apply wfStream_cancel_flatten pkts1 _ hw1
      rw [← List.append_assoc, ← hsplit, ← hassoc]
      exact hwf
    have hfeed : readLoopFeed r0 c (chunk :: rest) =
        (pkts1 ++ (readLoopFeed r1 c rest).1, (readLoopFeed r1 c rest).2) := by
      simp only [readLoopFeed, hstep]
    rw [hfeed, ih r1 c hr1 hwf2, hassoc, hsplit, List.append_assoc,
      process_flatten_append pkts1 _ c hw1]

/-- C2 (amended): for every sequence of chunks whose concatenation splits into
whole well-formed packets (declared length equal to byte count, at least 11
and — the correction the signed 32-bit length read forces — below `2^31`)
followed by a strict front part of a next packet, the read loop delivers to
the callback exactly those whole packets, in stream order, each exactly its
declared length of bytes; the remaining buffer is that strict front part
(shorter than its declared length), so no byte is lost or duplicated across
chunk boundaries. -/
theorem framing_spec (chunks pkts : List (List Nat)) (r : List Nat)
    (hjoin : chunks.flatten = pkts.flatten ++ r)
    (hw : ∀ p ∈ pkts, wfPacket p) (hr : strictFragment r) :
    readLoopFeed [] true chunks = (pkts, r, true) := by
  have h0 : strictFragment ([] : List Nat) :=
    ⟨[0, 0, 0, 11, 0, 0, 0, 0, 0, 0, 0], by decide, by decide, by decide⟩
  have hwf : wfStream (([] : List Nat) ++ chunks.flatten) := by
    rw [List.nil_append, hjoin]; exact ⟨pkts, r, rfl, hw, hr⟩
  rw [readLoopFeed_eq chunks [] true h0 hwf, List.nil_append, hjoin]
  exact process_stream pkts r true hw hr

/-- Witness for C2 (amended): a 12-byte packet split across two reads, the
second read also carrying the first 3 bytes of a next packet: exactly one
packet is delivered, whole, and the 3 stray bytes stay buffered. -/
theorem framing_spec_witness :
    readLoopFeed [] true [[0, 0, 0, 12, 0, 0, 0, 1, 128, 0], [0, 7, 0, 0, 0]] =
      ([[0, 0, 0, 12, 0, 0, 0, 1, 128, 0, 0, 7]], [0, 0, 0], true) :=
  framing_spec [[0, 0, 0, 12, 0, 0, 0, 1, 128, 0], [0, 7, 0, 0, 0]]
    [[0, 0, 0, 12, 0, 0, 0, 1, 128, 0, 0, 7]] [0, 0, 0] (by decide) (by decide)
    ⟨[0, 0, 0, 11, 0, 0, 0, 2, 128, 0, 0], by decide, by decide, by decide⟩

/-- Counterexample for C2 (as stated): a packet whose declared length is
`2^31` (which is at least 11) makes the signed length read negative; the
adapter takes the corrupt branch and throws the 11 buffered bytes away — the
remaining buffer is empty instead of holding the 11-byte front part, so the
bytes are lost, contradicting the claim for declared lengths that merely
satisfy `length ≥ 11`. -/
theorem framing_counterexample :
    readLoopFeed [] true [[128, 0, 0, 0, 0, 0, 0, 0, 0, 0, 0]] =
      ([], [], true) ∧
    11 ≤ beU32 [128, 0, 0, 0, 0, 0, 0, 0, 0, 0, 0] 0 ∧
    ([128, 0, 0, 0, 0, 0, 0, 0, 0, 0, 0] : List Nat) ≠ [] := by
  refine ⟨?_, by decide, by decide⟩
  have hp : processJdwpPackets [128, 0, 0, 0, 0, 0, 0, 0, 0, 0, 0]
      true = ([], [], true) := by
    unfold processJdwpPackets
    rw [if_pos (by decide), if_pos (by decide)]
  simp [readLoopFeed, hp]

/-- The `Location` record of src/client.ts `readLocation`. -/
structure JLocation where
  typeTag : Nat
  classId : Int
  methodId : Int
  index : Int
deriving DecidableEq, Repr

/-- `readLocation` of src/client.ts. -/
def readLocation (data : List Nat) (o : Int) : JLocation :=
  ⟨byteI data o, readUint64 data (o + 1), readUint64 data (o + 9),
    readUint64 data (o + 17)⟩

/-- `getLocationSize` of src/client.ts: `1 + 8 + 8 + 8`. -/
def getLocationSize : Int := 1 + 8 + 8 + 8

/-- `getValueSize` of src/client.ts (tag byte included in the size). -/
def getValueSize (tag : Nat) : Int :=
  if tag = 66 ∨ tag = 90 then 2
  else if tag = 83 ∨ tag = 67 then 3
  else if tag = 73 ∨ tag = 70 then 5
  else if tag = 74 ∨ tag = 68 ∨ tag = 115 ∨ tag = 76 ∨ tag = 91 then 9
  else 1

/-- `data.slice(start, start + len)` for the nonnegative starts in scope
(negative lengths produce the empty slice, as in JavaScript). -/
def sliceLen (data : List Nat) (start len : Int) : List Nat :=
  (data.drop start.toNat).take len.toNat

/-- `getEventDataSize` of src/client.ts (lines 1054-1126): the decoder's skip
table for the bytes following requestId and threadId. -/
def getEventDataSize (eventKind : Nat) (data : List Nat) (o : Int) : Int :=
  if eventKind = 1 ∨ eventKind = 2 then getLocationSize
  else if eventKind = 3 then getLocationSize
  else if eventKind = 4 then getLocationSize + 8 + getLocationSize
  else if eventKind = 5 then 0
  else if eventKind = 6 ∨ eventKind = 7 then 0
  else if eventKind = 8 then 1 + 8 + 4 + readUint32 data (o + 9) + 4
  else if eventKind = 9 then 4 + readUint32 data o
  else if eventKind = 10 then 1 + 8 + 4 + readUint32 data (o + 9) + 4
  else if eventKind = 20 ∨ eventKind = 21 then 1 + 8 + 8 + 8 + getLocationSize
  else if eventKind = 30 then getLocationSize + 1 + 8 + 8 + 8
  else if eventKind = 40 ∨ eventKind = 41 then getLocationSize
  else if eventKind = 42 then
    getLocationSize + getValueSize (byteI data (o + getLocationSize))
  else if eventKind = 43 ∨ eventKind = 44 ∨ eventKind = 45 ∨ eventKind = 46
    then 1 + 8 + getLocationSize
  else if eventKind = 90 then 0
  else if eventKind = 99 ∨ eventKind = 100 then 0
  else 0

/-- The parsed event record of src/client.ts (only the fields the parser
sets; UTF-8 signatures are kept as their raw bytes). -/
structure JEvent where
  eventKind : Nat
  requestId : Int
  threadId : Int
  location : Option JLocation := none
  refTypeTag : Option Nat := none
  typeId : Option Int := none
  signature : Option (List Nat) := none
  status : Option Int := none
deriving DecidableEq, Repr

/-- The body of the `parseCompositeEvent` loop of src/client.ts (lines
126-185): decode one event record at `o` and return it with the offset at
which the loop continues.  The kind, requestId and an 8-byte threadId are
read unconditionally; BREAKPOINT/SINGLE_STEP and CLASS_PREPARE have inline
cases, everything else advances by `getEventDataSize`. -/
def parseOneEvent (data : List Nat) (o : Int) : JEvent × Int :=
  let eventKind := byteI data o
  let requestId := readUint32 data (o + 1)
  let threadId := readUint64 data (o + 5)
  let oBody := o + 13
  if eventKind = 2 ∨ eventKind = 1 then
    ({ eventKind, requestId, threadId,
       location := some (readLocation data oBody) },
     oBody + getLocationSize)
  else if eventKind = 8 then
    let typeTag := byteI data oBody
    let typeId := readUint64 data (oBody + 1)
    let signLength := readUint32 data (oBody + 9)
    let signature := sliceLen data (oBody + 13) signLength
    let classStatus := readUint32 data (oBody + 13 + signLength)
    ({ eventKind, requestId, threadId, refTypeTag := some typeTag,
       typeId := some typeId, signature := some signature,
       status := some classStatus },
     oBody + 13 + signLength + 4)
  else
    ({ eventKind, requestId, threadId },
     oBody + getEventDataSize eventKind data oBody)

/-- The `parseCompositeEvent` loop: `eventsCount` iterations of the body. -/
def parseEvents (data : List Nat) : Nat → Int → List JEvent
  | 0, _ => []
  | n + 1, o =>
    let pe := parseOneEvent data o
    pe.1 :: parseEvents data n pe.2

/-- `parseCompositeEvent` of src/client.ts: suspendPolicy (1 byte, unused by
the parse result), eventsCount (u32), then the records from offset 5. -/
def parseCompositeEvent (data : List Nat) : List JEvent :=
  parseEvents data (readUint32 data 1).toNat 5

/-- The per-event dispatch of `handleEventPacket` in src/client.ts (lines
99-107): the callback registered under the event's own requestId, if any;
otherwise the event is only logged. -/
def dispatchEvent (keys : List Int) (e : JEvent) : Option Int :=
  if e.requestId ∈ keys then some e.requestId else none

/-- `handleEventPacket` of src/client.ts (lines 95-112): on a Composite event
packet (commandSet 64, command 100), decode the records and pair each with
the callback key it is delivered to (`none` = logged and dropped); any other
inbound command is logged and produces no deliveries. -/
def handleEventPacket (keys : List Int) (packet : JPacket) :
    List (JEvent × Option Int) :=
  if packet.commandSet = 64 ∧ packet.command = 100 then
    (parseCompositeEvent packet.data).map (fun e => (e, dispatchEvent keys e))
  else []

/-- Specification-side (spec §3): the wire size of a tagged value, 1 tag byte
plus the tag-dependent value size (8-byte object ids in the Android profile,
nothing for void). -/
def specTaggedValueSize (tag : Nat) : Int :=
  if tag = 66 ∨ tag = 90 then 2
  else if tag = 67 ∨ tag = 83 then 3
  else if tag = 73 ∨ tag = 70 then 5
  else if tag = 74 ∨ tag = 68 then 9
  else if tag = 76 ∨ tag = 91 ∨ tag = 115 ∨ tag = 116 ∨ tag = 103 ∨
    tag = 108 ∨ tag = 99 then 9
  else 1

/-- Specification-side (spec §3 and §4.7): the exact wire length of one event
record starting at `o`: eventKind (1) and requestId (4), then an 8-byte
threadId except for VM_DEATH (99), VM_DISCONNECTED (100) and USER_DEFINED (5),
then the kind-specific suffix of the table (for EXCEPTION: Location (25) +
taggedObjectID (9) + Location (25)). -/
def specEventRecordLength (data : List Nat) (o : Int) : Int :=
  let kind := byteI data o
  let headerLen : Int := if kind = 99 ∨ kind = 100 ∨ kind = 5 then 5 else 13
  let so := o + headerLen
  headerLen +
    (if kind = 1 ∨ kind = 2 ∨ kind = 3 ∨ kind = 40 ∨ kind = 41 then 25
     else if kind = 42 then 25 + specTaggedValueSize (byteI data (so + 25))
     else if kind = 4 then 25 + 9 + 25
     else if kind = 6 ∨ kind = 7 ∨ kind = 90 then 0
     else if kind = 8 ∨ kind = 10 then
       1 + 8 + 4 + ((beU32 data (so + 9).toNat : Nat) : Int) + 4
     else if kind = 9 then 4 + ((beU32 data so.toNat : Nat) : Int)
     else if kind = 20 then 1 + 8 + 8 + 9 + 25
     else if kind = 21 then
       1 + 8 + 8 + 9 + 25 + specTaggedValueSize (byteI data (so + 50))
     else if kind = 30 then 25 + 1 + 8 + 8 + 8
     else if kind = 43 ∨ kind = 44 ∨ kind = 45 ∨ kind = 46 then 1 + 8 + 25
     else 0)

/-- C5: the decoder does NOT advance by the record's wire length.  A VM_DEATH
record (kind 99, requestId 1) is 5 bytes on the wire (no threadId), but
`parseOneEvent` advances 13 bytes because it reads an 8-byte threadId for
every kind; an EXCEPTION record is 72 bytes on the wire (its exception object
is a 9-byte taggedObjectID) but the decoder advances only 71 (it skips 8
bytes for the object), so the offset does not land at the next record. -/
theorem parseOneEvent_wire_length_bug :
    (parseOneEvent ([99, 0, 0, 0, 1] ++ zeros 8) 0).2 = 13 ∧
    specEventRecordLength ([99, 0, 0, 0, 1] ++ zeros 8) 0 = 5 ∧
    (parseOneEvent ([4, 0, 0, 0, 3] ++ zeros 8 ++ zeros 25 ++ [76] ++
      zeros 8 ++ zeros 25) 0).2 = 71 ∧
    specEventRecordLength ([4, 0, 0, 0, 3] ++ zeros 8 ++ zeros 25 ++ [76] ++
      zeros 8 ++ zeros 25) 0 = 72 := by decide

/-- Counterexample for C4: a composite packet carrying one BREAKPOINT event
with requestId 7, delivered while only the wildcard key 0 is registered: the
event is dropped (`none`), not routed to the key-0 subscriber. -/
theorem handleEventPacket_wildcard_counterexample :
    handleEventPacket [0]
      ⟨54, 33, 0, 64, 100,
        [2, 0, 0, 0, 1, 2, 0, 0, 0, 7] ++ zeros 8 ++ zeros 25⟩ =
      [(⟨2, 7, 0, some ⟨0, 0, 0, 0⟩, none, none, none, none⟩, none)] ∧
    (0 : Int) ∈ ([0] : List Int) := by decide

/-- C4 (amended): in a composite event packet each decoded event is delivered
to the callback registered under its own requestId when one exists and is
otherwise logged and dropped; there is no wildcard fallback — a key-0
subscriber receives exactly the events whose requestId field is 0. -/
theorem handleEventPacket_dispatch (keys : List Int) (packet : JPacket)
    (hcs : packet.commandSet = 64) (hcmd : packet.command = 100) (i : Nat) :
    (handleEventPacket keys packet)[i]? =
      ((parseCompositeEvent packet.data)[i]?).map
        (fun e => (e, if e.requestId ∈ keys then some e.requestId else none)) := by
  unfold handleEventPacket dispatchEvent
  rw [if_pos ⟨hcs, hcmd⟩]
  simp

/-- Witness for C4 (amended): the same breakpoint event with its own key 7
registered is delivered to key 7. -/
theorem handleEventPacket_dispatch_witness :
    (handleEventPacket [7]
      ⟨54, 33, 0, 64, 100,
        [2, 0, 0, 0, 1, 2, 0, 0, 0, 7] ++ zeros 8 ++ zeros 25⟩)[0]? =
      some (⟨2, 7, 0, some ⟨0, 0, 0, 0⟩, none, none, none, none⟩, some 7) := by
  rw [handleEventPacket_dispatch [7]
    ⟨54, 33, 0, 64, 100,
      [2, 0, 0, 0, 1, 2, 0, 0, 0, 7] ++ zeros 8 ++ zeros 25⟩ rfl rfl 0]
  decide

/-- C9: the readUint64/writeUint64 pair is NOT the identity on 8-byte wire
patterns.  The id `2^53 + 1` (bytes 00 20 00 00 00 00 00 01) is read as the
double `2^53` — the same value as the distinct id `2^53` — and writing the
read-back value yields 00 20 00 00 00 00 00 00: the id is altered and two
distinct 64-bit ids are conflated, refuting identity over the full 64-bit
range (it holds only below `2^53`). -/
theorem readUint64_roundtrip_bug :
    readUint64 [0, 32, 0, 0, 0, 0, 0, 1] 0 = 2 ^ 53 ∧
    beU64 [0, 32, 0, 0, 0, 0, 0, 1] 0 = 2 ^ 53 + 1 ∧
    readUint64 [0, 32, 0, 0, 0, 0, 0, 0] 0 = 2 ^ 53 ∧
    beU64 [0, 32, 0, 0, 0, 0, 0, 0] 0 = 2 ^ 53 ∧
    writeUint64 (zeros 8) 0 (readUint64 [0, 32, 0, 0, 0, 0, 0, 1] 0) =
      [0, 32, 0, 0, 0, 0, 0, 0] ∧
    ([0, 32, 0, 0, 0, 0, 0, 0] : List Nat) ≠ [0, 32, 0, 0, 0, 0, 0, 1] := by
  decide

/-- `setupEvent`'s request payload (src/client.ts lines 195-213): eventKind,
suspendPolicy, modifier count, then each modifier's kind byte and body. -/
def setupEventData (eventKind suspendPolicy : Nat)
    (modifiers : List (Nat × List Nat)) : List Nat :=
  let size := modifiers.foldl (fun acc m => acc + 1 + m.2.length) 6
  let buf := writeUint32 (writeUint8 (writeUint8 (zeros size) 0 eventKind)
    1 suspendPolicy) 2 modifiers.length
  (modifiers.foldl
    (fun (st : List Nat × Nat) m =>
      (setBytes (writeUint8 st.1 st.2 m.1) (st.2 + 1) m.2,
       st.2 + 1 + m.2.length))
    (buf, 6)).1

/-- `setupEvent`'s result (src/client.ts line 216): the u32 read at offset 0
of the delivered reply payload. -/
def setupEventResult (replyData : List Nat) : Int := readUint32 replyData 0

/-- Specification-side: the request id assigned by the VM is the u32 that
follows the 2-byte error code of the reply payload. -/
def specSetupEventRequestId (replyData : List Nat) : Nat := beU32 replyData 2

/-- C3: `setupEvent` does NOT return the VM-assigned request id.  The reply
payload delivered to the caller begins at the error-code field (see C1), but
`setupEvent` reads the u32 at offset 0 — spanning the 2-byte error code and
the top half of the request id — instead of offset 2.  For a successful reply
carrying request id 1 (payload 00 00 00 00 00 01) it returns 0. -/
theorem setupEvent_requestId_bug :
    setupEventResult [0, 0, 0, 0, 0, 1] = 0 ∧
    specSetupEventRequestId [0, 0, 0, 0, 0, 1] = 1 ∧
    setupEventResult [0, 0, 0, 0, 0, 1] ≠
      (specSetupEventRequestId [0, 0, 0, 0, 0, 1] : Int) := by decide

/-- The observable steps of `NodeTcpJDWPTransport.connect` (the Node CLI
transport), in program order. -/
inductive ConnectAction where
  | createTransport
  | connectSocket (pid : Nat)
  | getReader
  | getWriter
  | setConnected
  | startReadLoop
  | writeBytes (bytes : List Nat)
  | readBytes (count : Nat)
deriving DecidableEq, Repr

/-- `NodeTcpJDWPTransport.connect` (unnamed CLI source, lines 28-55): create
the server transport, open the `jdwp:<pid>` socket, take the reader and
writer, mark connected, start the read loop.  No byte is written or read
before packet processing begins. -/
def nodeTcpConnect (pid : Nat) : List ConnectAction :=
  [.createTransport, .connectSocket pid, .getReader, .getWriter,
    .setConnected, .startReadLoop]

/-- The 14 ASCII bytes `JDWP-Handshake`. -/
def jdwpHandshake : List Nat := ascii "JDWP-Handshake"

/-- Whether a connect step transfers bytes on the stream. -/
def transfersBytes : ConnectAction → Bool
  | .writeBytes _ => true
  | .readBytes _ => true
  | _ => false

/-- C6: the Node TCP transport's `connect()` performs no handshake at all: it
neither writes the 14 handshake bytes nor reads or verifies a 14-byte reply —
it opens the socket and immediately starts the packet read loop. -/
theorem nodeTcpConnect_no_handshake :
    (nodeTcpConnect 1234).all (fun a => !transfersBytes a) = true ∧
    ConnectAction.writeBytes jdwpHandshake ∉ nodeTcpConnect 1234 ∧
    jdwpHandshake.length = 14 := by decide

/-- State of a scripted client run: the remaining mock reply payloads (the
bytes the command parsers read from `response.data`) and the requests issued
so far, each as (commandSet, command, payload). -/
structure ExecSt where
  replies : List (List Nat)
  reqs : List (Nat × Nat × List Nat)
deriving DecidableEq, Repr

/-- The client's async computations, run against the scripted replies. -/
def JM (α : Type) : Type := ExecSt → Except String (α × ExecSt)

instance : Monad JM where
  pure a := fun s => .ok (a, s)
  bind m f := fun s =>
    match m s with
    | .error e => .error e
    | .ok (a, s1) => f a s1

/-- A thrown `Error`. -/
def jmThrow {α : Type} (msg : String) : JM α := fun _ => .error msg

/-- `sendCommand`, as seen by the command layer: record the request and hand
back the next scripted reply payload. -/
def sendCommand (commandSet command : Nat) (payload : List Nat) :
    JM (List Nat) := fun s =>
  match s.replies with
  | [] => .error "no scripted reply"
  | rep :: rest => .ok (rep, ⟨rest, s.reqs ++ [(commandSet, command, payload)]⟩)

/-- A u32 length prefix followed by the bytes (the buffer built by
`getReferenceTypeId` and `createString`). -/
def lenPrefixed (bytes : List Nat) : List Nat :=
  setBytes (writeUint32 (zeros (4 + bytes.length)) 0 bytes.length) 4 bytes

/-- An 8-byte buffer holding one id (`writeReferenceTypeId` into
`new Uint8Array(8)`). -/
def idBuf (id : Int) : List Nat := writeUint64 (zeros 8) 0 id

/-- `getReferenceTypeId` of src/client.ts (lines 832-866): ClassesBySignature,
then read the count at offset 0 of the reply payload, fail on 0, skip the
type tag and read the reference type id at offset 5. -/
def getReferenceTypeId (signature : List Nat) : JM Int := do
  let resp ← sendCommand 1 2 (lenPrefixed signature)
  let classesCount := readUint32 resp 0
  if classesCount = 0 then jmThrow "Class not found"
  else pure (readUint64 resp 5)

/-- The scan of `getMethodId` (src/client.ts lines 1264-1288) over a Methods
reply: per entry methodId (8), name (u32-prefixed), signature (u32-prefixed),
modifiers (4); the first exact (name, signature) match wins. -/
def scanMethods (resp methodName signature : List Nat) :
    Nat → Int → Option Int
  | 0, _ => none
  | n + 1, o =>
    let methodId := readUint64 resp o
    let nameLength := readUint32 resp (o + 8)
    let name := sliceLen resp (o + 12) nameLength
    let sigLength := readUint32 resp (o + 12 + nameLength)
    let sig := sliceLen resp (o + 16 + nameLength) sigLength
    if name = methodName ∧ sig = signature then some methodId
    else scanMethods resp methodName signature n (o + 20 + nameLength + sigLength)

/-- `getMethodId` of src/client.ts: Methods on the class, then the scan. -/
def getMethodId (classId : Int) (methodName signature : List Nat) : JM Int := do
  let resp ← sendCommand 2 5 (idBuf classId)
  match scanMethods resp methodName signature (readUint32 resp 0).toNat 4 with
  | some mid => pure mid
  | none => jmThrow "Method not found"

/-- `getFirstMethodId` of src/client.ts (lines 1294-1309): split
`name(args)ret` at the first `(` (byte 40) and delegate. -/
def getFirstMethodId (classId : Int) (nameWithSignature : List Nat) : JM Int :=
  match nameWithSignature.indexOf? 40 with
  | none => jmThrow "Invalid method signature"
  | some i => getMethodId classId (nameWithSignature.take i)
      (nameWithSignature.drop i)

/-- A decoded tagged value (`JDWPValue`); object ids, primitives and the
JS-null of unknown tags are all carried in one integer. -/
structure JValue where
  tag : Nat
  value : Int
deriving DecidableEq, Repr

/-- `readInt8` of src/client.ts. -/
def readInt8 (d : List Nat) (o : Int) : Int :=
  let v := byteI d o
  if 127 < v then (v : Int) - 256 else v

/-- `readInt16` of src/client.ts. -/
def readInt16 (d : List Nat) (o : Int) : Int :=
  let v := readUint16 d o
  if 32767 < v then (v : Int) - 65536 else v

/-- `readInt64` of src/client.ts: `(BigInt(high) << 32n) | BigInt(low)` on the
signed u32 reads; in two's complement a negative `low` has all high bits set,
so the OR returns `low` alone, otherwise it is `high * 2^32 + low`. -/
def readInt64 (d : List Nat) (o : Int) : Int :=
  let high := readUint32 d o
  let low := readUint32 d (o + 4)
  if low < 0 then low else high * 2 ^ 32 + low

/-- `parseValue` of src/client.ts (lines 598-639): tag byte then the
tag-directed read (`readInt32` coincides with the signed `readUint32`). -/
def parseValue (d : List Nat) (o : Int) : JValue :=
  let tag := byteI d o
  let v : Int :=
    if tag = 66 then readInt8 d (o + 1)
    else if tag = 67 ∨ tag = 83 then readInt16 d (o + 1)
    else if tag = 73 ∨ tag = 70 then readUint32 d (o + 1)
    else if tag = 74 ∨ tag = 68 then readInt64 d (o + 1)
    else if tag = 90 then (if byteI d (o + 1) ≠ 0 then 1 else 0)
    else if tag = 115 ∨ tag = 76 ∨ tag = 91 ∨ tag = 116 ∨ tag = 103 ∨
      tag = 108 ∨ tag = 99 then readUint64 d (o + 1)
    else 0
  ⟨tag, v⟩

/-- `writeUint16` of src/client.ts on a JS number. -/
def writeUint16 (buf : List Nat) (o : Nat) (v : Int) : List Nat :=
  (buf.set o ((v.emod (2 ^ 32)).toNat / 2 ^ 8 % 256)).set (o + 1)
    ((v.emod (2 ^ 32)).toNat % 256)

/-- `writeInt64` of src/client.ts: high word `(v >> 32n) & 0xFFFFFFFFn`,
low word `v & 0xFFFFFFFFn`. -/
def writeInt64 (buf : List Nat) (o : Nat) (v : Int) : List Nat :=
  writeUint32 (writeUint32 buf o ((Int.fdiv v (2 ^ 32)).emod (2 ^ 32)).toNat)
    (o + 4) (v.emod (2 ^ 32)).toNat

/-- `writeValue` of src/client.ts (lines 641-672): tag byte, tag-directed
value bytes; returns the buffer and the consumed size. -/
def writeValue (buf : List Nat) (o : Nat) (v : JValue) : List Nat × Nat :=
  let buf1 := writeUint8 buf o v.tag
  if v.tag = 66 then (writeUint8 buf1 (o + 1) (v.value.emod 256).toNat, 2)
  else if v.tag = 83 ∨ v.tag = 67 then (writeUint16 buf1 (o + 1) v.value, 3)
  else if v.tag = 73 ∨ v.tag = 70 then (writeUint32I buf1 (o + 1) v.value, 5)
  else if v.tag = 74 ∨ v.tag = 68 then (writeInt64 buf1 (o + 1) v.value, 9)
  else if v.tag = 90 then
    (writeUint8 buf1 (o + 1) (if v.value ≠ 0 then 1 else 0), 2)
  else if v.tag = 115 ∨ v.tag = 76 ∨ v.tag = 91 then
    (writeUint64 buf1 (o + 1) v.value, 9)
  else (buf1, 1)

/-- `invokeMethod` of src/client.ts (lines 478-513): objectId, threadId,
classId, methodId, argCount, tagged args, options into a buffer of capacity
`32 + 9 * args` (stores past the end are dropped), sliced to `offset + 4`;
ObjectReference.InvokeMethod (9, 6); result parsed at payload offset 0. -/
def invokeMethod (objectId threadId classId methodId : Int)
    (args : List JValue) (options : Int) : JM JValue := do
  let buf0 := writeUint32 (writeUint64 (writeUint64 (writeUint64 (writeUint64
    (zeros (32 + args.length * 9)) 0 objectId) 8 threadId) 16 classId)
    24 methodId) 32 args.length
  let st := args.foldl
    (fun (st : List Nat × Nat) a =>
      let r := writeValue st.1 st.2 a
      (r.1, st.2 + r.2))
    (buf0, 36)
  let buf1 := writeUint32I st.1 st.2 options
  let resp ← sendCommand 9 6 (buf1.take (st.2 + 4))
  pure (parseValue resp 0)

/-- `invokeStaticMethod` of src/client.ts (lines 1198-1240): classId,
threadId, methodId, argCount into a capacity-`28 + 9 * args` buffer; the
source's `for (const arg in args)` iterates index keys, wrapping each as a
STRING-tagged value holding the numeric coercion of the key; options u32
lands past the buffer end for an empty argument list and is dropped;
ClassType.InvokeMethod (3, 3); result parsed at payload offset 0. -/
def invokeStaticMethod (classId threadId methodId : Int)
    (args : List JValue) (_options : Int) : JM JValue := do
  let buf0 := writeUint32 (writeUint64 (writeUint64 (writeUint64
    (zeros (28 + args.length * 9)) 0 classId) 8 threadId) 16 methodId)
    24 args.length
  let st := (List.range args.length).foldl
    (fun (st : List Nat × Nat) i =>
      let r := writeValue st.1 st.2 ⟨115, (i : Int)⟩
      (r.1, st.2 + r.2))
    (buf0, 28)
  let buf1 := writeUint32I st.1 st.2 0
  let resp ← sendCommand 3 3 (buf1.take (st.2 + 4))
  pure (parseValue resp 0)

/-- `createString` of src/client.ts (lines 1151-1167): CreateString (1, 11),
object id read at payload offset 0. -/
def createString (value : List Nat) : JM Int := do
  let resp ← sendCommand 1 11 (lenPrefixed value)
  pure (readUint64 resp 0)

/-- `getRuntime` of src/client.ts (lines 1314-1338). -/
def getRuntime (threadId : Int) : JM Int := do
  let runtimeClassId ← getReferenceTypeId (ascii "Ljava/lang/Runtime;")
  let getRuntimeMethodId ← getFirstMethodId runtimeClassId
    (ascii "getRuntime()Ljava/lang/Runtime;")
  let result ← invokeStaticMethod runtimeClassId threadId getRuntimeMethodId
    [] 0
  if result.tag ≠ 76 ∨ result.value = 0 then
    jmThrow "Failed to get Runtime instance"
  else pure result.value

/-- `exec` of src/client.ts (lines 1343-1400): getRuntime, CreateString, then
the `exec` method is looked up on the class returned by
ClassesBySignature("Ljava/lang/Process;") — the source's comment says
"runtime class" but the signature is the Process class — invoke exec, look up
`waitFor()I` on Process, invoke it, and return the value after checking the
INT tag. -/
def exec (threadId : Int) (cmd : List Nat) : JM Int := do
  let runtimeId ← getRuntime threadId
  let cmdStringId ← createString cmd
  let runtimeClassId ← getReferenceTypeId (ascii "Ljava/lang/Process;")
  let execMethodId ← getFirstMethodId runtimeClassId
    (ascii "exec(Ljava/lang/String;)Ljava/lang/Process;")
  let processResult ← invokeMethod runtimeId threadId runtimeClassId
    execMethodId [⟨115, cmdStringId⟩] 0
  if processResult.tag ≠ 76 then jmThrow "exec did not return a Process object"
  else do
    let processClassId ← getReferenceTypeId (ascii "Ljava/lang/Process;")
    let waitForMethodId ← getFirstMethodId processClassId (ascii "waitFor()I")
    let exitCodeResult ← invokeMethod processResult.value threadId
      processClassId waitForMethodId [] 0
    if exitCodeResult.tag ≠ 73 then jmThrow "waitFor did not return an integer"
    else pure exitCodeResult.value

/-- A mock ClassesBySignature reply: one class, type tag 1, the given id. -/
def classReply (classId : Int) : List Nat := [0, 0, 0, 1, 1] ++ idBuf classId

/-- A mock Methods reply: one method with the given id, name and signature. -/
def methodsReply (methodId : Int) (name sig : List Nat) : List Nat :=
  [0, 0, 0, 1] ++ idBuf methodId ++ lenPrefixed name ++ lenPrefixed sig ++
    [0, 0, 0, 0]

/-- A mock InvokeMethod reply: an OBJECT-tagged id. -/
def objectReply (objectId : Int) : List Nat := [76] ++ idBuf objectId

/-- Run `exec(threadId = 4096, "id")` against mock replies answering each
issued command in order (Runtime class, its methods, the static invoke, the
created string, the Process class, its methods, the exec invoke, the Process
class again, its methods, the waitFor invoke returning INT 0). -/
def execDemo : Except String (Int × ExecSt) :=
  exec 4096 (ascii "id")
    ⟨[classReply 0xAA,
      methodsReply 0xBB (ascii "getRuntime") (ascii "()Ljava/lang/Runtime;"),
      objectReply 0xC1,
      idBuf 0xD1,
      classReply 0xA2,
      methodsReply 0xB2 (ascii "exec")
        (ascii "(Ljava/lang/String;)Ljava/lang/Process;"),
      objectReply 0xE1,
      classReply 0xA2,
      methodsReply 0xB3 (ascii "waitFor") (ascii "()I"),
      [73, 0, 0, 0, 0]], []⟩

/-- The requests `execDemo` issued, in order. -/
def execDemoReqs : List (Nat × Nat × List Nat) :=
  match execDemo with
  | .ok (_, st) => st.reqs
  | .error _ => []

/-- The exit code `execDemo` resolved to, if it resolved. -/
def execDemoExit : Option Int :=
  match execDemo with
  | .ok (code, _) => some code
  | .error _ => none

/-- C8: with a compliant mock VM, `exec` resolves to the INT exit code of the
final waitFor invocation (here 0), but the command sequence deviates from the
specified one: the fifth issued command — the class lookup used to resolve
the `exec` method — is ClassesBySignature("Ljava/lang/Process;"), not
ClassesBySignature("Ljava/lang/Runtime;") as the claim states. -/
theorem exec_method_lookup_uses_process_class :
    execDemoExit = some 0 ∧
    execDemoReqs.length = 10 ∧
    execDemoReqs[4]? =
      some (1, 2, lenPrefixed (ascii "Ljava/lang/Process;")) ∧
    execDemoReqs[4]? ≠
      some (1, 2, lenPrefixed (ascii "Ljava/lang/Runtime;")) := by decide
